import Mathlib

/-!
# Verification of the Tiles-Tapestry collage core

Shallow embedding of the layout engine (`recalc_layout`) and the compositing
pipeline (`build_collage`) of `src/Collage.py` (latest variant) together with
the lock-aware layout loop of `src/Older Scripts/Collage-V5.py`.

Modelling conventions:
* Python unbounded `int` is modelled as `Int`, Python `float` division inside
  the layout engine (`overflow / entry.target_w`) is modelled as exact `ℚ`
  arithmetic (exact for all integer operands below `2^53`, which covers every
  realistic tile size).
* Python string-to-int conversion (`int(s)` / `int(s, 16)`) is modelled by
  `pyInt` / `pyIntHex`: surrounding ASCII whitespace, an optional sign, then a
  non-empty run of digits of the base.  (CPython's underscore digit grouping
  and non-ASCII digits are not modelled.)
* Stateful methods become explicit state passing: `recalc_layout` maps an
  input tile list to an output tile list, `build_collage` returns the list of
  paste operations it would perform (geometry only — pixel contents do not
  influence any control flow in the source) together with the diagnostics it
  prints, or `none` when the settings fail to parse (the early
  `return`/`return None` paths of the Python code).
-/

namespace Tapestry

/-- ASCII whitespace as stripped by Python's `str.strip()` (unicode whitespace
beyond ASCII is not modelled). -/
def isPySpace (c : Char) : Bool :=
  (c == ' ') || (c == '\t') || (c == '\n') || (c == '\r') || (c == '\x0b') || (c == '\x0c')

/-- `str.strip()`: drop whitespace from both ends. -/
def pyStrip (l : List Char) : List Char :=
  ((l.dropWhile isPySpace).reverse.dropWhile isPySpace).reverse

/-- Hexadecimal digit recognizer (0-9, a-f, A-F). -/
def isHexDigit (c : Char) : Bool :=
  c.isDigit || (decide (97 ≤ c.toNat) && decide (c.toNat ≤ 102))
    || (decide (65 ≤ c.toNat) && decide (c.toNat ≤ 70))

/-- Numeric value of a hexadecimal digit. -/
def hexVal (c : Char) : Nat :=
  if c.isDigit then c.toNat - 48
  else if decide (97 ≤ c.toNat) then c.toNat - 87
  else c.toNat - 55

/-- Value of a big-endian string of base-16 digits. -/
def hexListVal (l : List Char) : Nat :=
  l.foldl (fun a c => 16 * a + hexVal c) 0

/-- Value of a big-endian string of base-10 digits. -/
def decListVal (l : List Char) : Nat :=
  l.foldl (fun a c => 10 * a + (c.toNat - 48)) 0

/-- Model of CPython `int(s, base)`: strip surrounding whitespace, accept an
optional `+`/`-` sign followed by a non-empty run of digits of the base;
everything else raises `ValueError`, modelled as `none`. -/
def pyIntOf (digitOk : Char → Bool) (val : List Char → Nat) (l : List Char) : Option Int :=
  match pyStrip l with
  | '+' :: rest => if !rest.isEmpty && rest.all digitOk then some ((val rest : Nat) : Int) else none
  | '-' :: rest => if !rest.isEmpty && rest.all digitOk then some (-((val rest : Nat) : Int)) else none
  | rest => if !rest.isEmpty && rest.all digitOk then some ((val rest : Nat) : Int) else none

/-- Model of `int(s)` on a Python string. -/
def pyInt (s : String) : Option Int :=
  pyIntOf Char.isDigit decListVal s.data

/-- Model of `int(s, 16)` on a (sliced) character list. -/
def pyIntHex (l : List Char) : Option Int :=
  pyIntOf isHexDigit hexListVal l

/-- The first two statements of `parse_hex_color`: `c = hex_color.strip()`
followed by dropping one leading `#`. -/
def hexPayload (hex_color : String) : List Char :=
  match pyStrip hex_color.data with
  | '#' :: rest => rest
  | other => other

/-- `parse_hex_color` from `src/Collage.py` (lines 64-77): strip, drop one
leading `#`, and if six characters remain whose three two-character slices all
convert via `int(_, 16)`, return `(r, g, b, 255)`; on any failure
(`ValueError` caught, or length mismatch) return opaque black. -/
def parse_hex_color (hex_color : String) : Int × Int × Int × Int :=
  let c := hexPayload hex_color
  if c.length = 6 then
    match pyIntHex (c.take 2), pyIntHex ((c.drop 2).take 2), pyIntHex ((c.drop 4).take 2) with
    | some r, some g, some b => (r, g, b, 255)
    | _, _, _ => (0, 0, 0, 255)
  else (0, 0, 0, 255)

/-- The tile record (`ImageEntry` in both `Collage.py` and `Collage-V5.py`);
`locked` exists only in the V5 variant and is ignored by the latest layout. -/
structure ImageEntry where
  path : String
  orig_w : Int
  orig_h : Int
  target_w : Int
  target_h : Int
  x : Option Int := none
  y : Option Int := none
  manual_x : Option Int := none
  manual_y : Option Int := none
  locked : Bool := false
deriving Repr, DecidableEq

/-- `ImageEntry.get_display_pos`: each coordinate independently prefers the
manual override and falls back to the auto-layout value. -/
def ImageEntry.get_display_pos (e : ImageEntry) : Option Int × Option Int :=
  ((match e.manual_x with | some mx => some mx | none => e.x),
   (match e.manual_y with | some my => some my | none => e.y))

/-- `CollageApp.OVERFLOW_THRESHOLD = 0.5`. -/
def OVERFLOW_THRESHOLD : ℚ := 1 / 2

/-- The mutable cursor of `recalc_layout`. -/
structure LayoutState where
  current_x : Int
  current_y : Int
  current_row_height : Int
deriving Repr, DecidableEq

/-- The row-wrap statements of `recalc_layout`
(`current_y += current_row_height + border; current_x = border;
current_row_height = 0`). -/
def wrapRow (border : Int) (st : LayoutState) : LayoutState :=
  { current_x := border
    current_y := st.current_y + st.current_row_height + border
    current_row_height := 0 }

/-- Body of one iteration of the `recalc_layout` loop, after the skip test:
recompute free space with a forced wrap when it is non-positive, apply the
fractional-overflow wrap, assign the position, and advance the cursor. -/
def layoutBody (collage_width border : Int) (st0 : LayoutState) (e : ImageEntry) :
    LayoutState × ImageEntry :=
  let free0 := collage_width - st0.current_x - border
  let st1 := if free0 ≤ 0 then wrapRow border st0 else st0
  let free1 := if free0 ≤ 0 then collage_width - st1.current_x - border else free0
  let st2 :=
    if e.target_w > free1 ∧
        ((e.target_w - free1 : Int) : ℚ) / (e.target_w : ℚ) > OVERFLOW_THRESHOLD then
      wrapRow border st1
    else st1
  let e1 := { e with x := some st2.current_x, y := some st2.current_y }
  let st3 : LayoutState :=
    { current_x := st2.current_x + e.target_w + border
      current_y := st2.current_y
      current_row_height := max st2.current_row_height e.target_h }
  (st3, e1)

/-- One iteration of the `recalc_layout` loop in the latest `Collage.py`:
a tile with both manual coordinates set is skipped (`continue`). -/
def recalc_layout_step (collage_width border : Int) (st : LayoutState) (e : ImageEntry) :
    LayoutState × ImageEntry :=
  if e.manual_x ≠ none ∧ e.manual_y ≠ none then (st, e)
  else layoutBody collage_width border st e

/-- One iteration of the `recalc_layout` loop in `Collage-V5.py`:
a locked tile is skipped (`continue`). -/
def recalc_layout_v5_step (collage_width border : Int) (st : LayoutState) (e : ImageEntry) :
    LayoutState × ImageEntry :=
  if e.locked then (st, e)
  else layoutBody collage_width border st e

/-- The `for entry in self.images` loop, threading the cursor state. -/
def layoutLoop (step : LayoutState → ImageEntry → LayoutState × ImageEntry) :
    LayoutState → List ImageEntry → LayoutState × List ImageEntry
  | st, [] => (st, [])
  | st, e :: rest =>
    let p := step st e
    let q := layoutLoop step p.1 rest
    (q.1, p.2 :: q.2)

/-- Initial cursor: `current_x = border, current_y = border, current_row_height = 0`. -/
def initState (border : Int) : LayoutState :=
  { current_x := border, current_y := border, current_row_height := 0 }

/-- `CollageApp.recalc_layout` of the latest `Collage.py` (lines 288-316):
parse the width and border strings (on `ValueError` return with no mutation),
then run the placement loop over the tile list. -/
def recalc_layout (collage_width_s border_s : String) (images : List ImageEntry) :
    List ImageEntry :=
  match pyInt collage_width_s, pyInt border_s with
  | some cw, some b => (layoutLoop (recalc_layout_step cw b) (initState b) images).2
  | _, _ => images

/-- `CollageApp.recalc_layout` of `Collage-V5.py` (lines 275-306): identical
except that the skip test is the `locked` flag. -/
def recalc_layout_v5 (collage_width_s border_s : String) (images : List ImageEntry) :
    List ImageEntry :=
  match pyInt collage_width_s, pyInt border_s with
  | some cw, some b => (layoutLoop (recalc_layout_v5_step cw b) (initState b) images).2
  | _, _ => images

/-- Python `int()` applied to a rational: truncation toward zero. -/
def pyTrunc (q : ℚ) : Int :=
  if 0 ≤ q then ⌊q⌋ else ⌈q⌉

/-- Python floor division `a // 2`. -/
def pyFloorDiv2 (a : Int) : Int :=
  a.fdiv 2

/-- An axis-aligned box `(x0, y0, x1, y1)` as used for PIL crop/paste boxes. -/
structure Box where
  x0 : Int
  y0 : Int
  x1 : Int
  y1 : Int
deriving Repr, DecidableEq

/-- `crop_to_aspect` from `src/Collage.py` (lines 79-90), returning the crop
box handed to `img.crop`.  Aspect ratios are modelled as exact rationals. -/
def crop_to_aspect (orig_w orig_h target_w target_h : Int) : Box :=
  let target_aspect : ℚ := (target_w : ℚ) / (target_h : ℚ)
  let orig_aspect : ℚ := (orig_w : ℚ) / (orig_h : ℚ)
  if target_aspect > orig_aspect then
    let new_height := pyTrunc ((orig_w : ℚ) / target_aspect)
    let top := pyFloorDiv2 (orig_h - new_height)
    { x0 := 0, y0 := top, x1 := orig_w, y1 := top + new_height }
  else
    let new_width := pyTrunc ((orig_h : ℚ) * target_aspect)
    let left := pyFloorDiv2 (orig_w - new_width)
    { x0 := left, y0 := 0, x1 := left + new_width, y1 := orig_h }

/-- One paste operation performed by `build_collage`: the destination box on
the canvas (`inter`), the crop box applied to the resized tile (tile-local
coordinates), and whether a rounded-corner mask was applied alongside. -/
structure PasteOp where
  dest : Box
  src : Box
  masked : Bool
deriving Repr, DecidableEq

/-- The placement-and-clipping part of the `build_collage` loop body for a
tile whose bitmap was opened successfully (lines 501-526 of `Collage.py`):
effective position (per-coordinate manual override), placement box,
intersection with the safe area, and the paste of the overlapping sub-region.
Returns `none` when the intersection is empty (no paint operation).  The
`none, _ / _, none` position case is unreachable after `recalc_layout` has
run (see `recalc_layout_display_isSome`); Python would raise there. -/
def tileOpResolved (safe : Box) (corner_radius : Int) (e : ImageEntry) : Option PasteOp :=
  let px := match e.manual_x with | some mx => some mx | none => e.x
  let py := match e.manual_y with | some my => some my | none => e.y
  match px, py with
  | some x, some y =>
    let img_box : Box := { x0 := x, y0 := y, x1 := x + e.target_w, y1 := y + e.target_h }
    let inter : Box :=
      { x0 := max img_box.x0 safe.x0
        y0 := max img_box.y0 safe.y0
        x1 := min img_box.x1 safe.x1
        y1 := min img_box.y1 safe.y1 }
    if inter.x0 < inter.x1 ∧ inter.y0 < inter.y1 then
      let src_x := inter.x0 - x
      let src_y := inter.y0 - y
      let src_x2 := src_x + (inter.x1 - inter.x0)
      let src_y2 := src_y + (inter.y1 - inter.y0)
      some { dest := inter
             src := { x0 := src_x, y0 := src_y, x1 := src_x2, y1 := src_y2 }
             masked := decide (corner_radius > 0) }
    else none
  | _, _ => none

/-- The `for entry in self.images` loop of `build_collage`, indexed from `i`.
`resolve` abstracts the `try Image.open / crop_to_aspect / resize` block:
`none` means the block raised (decode failure etc.), in which case the tile
is reported (`print`, modelled by collecting its index) and skipped. -/
def compositeLoop (safe : Box) (corner_radius : Int) (resolve : Nat → Option (Int × Int)) :
    Nat → List ImageEntry → List Nat × List (Nat × PasteOp)
  | _, [] => ([], [])
  | i, e :: rest =>
    let q := compositeLoop safe corner_radius resolve (i + 1) rest
    match resolve i with
    | none => (i :: q.1, q.2)
    | some _ =>
      match tileOpResolved safe corner_radius e with
      | none => q
      | some op => (q.1, (i, op) :: q.2)

/-- Observable outcome of a successful `build_collage` run: canvas geometry,
parsed background color, indices of tiles skipped with a printed diagnostic,
and the paste operations performed (tagged with their tile index). -/
structure BuildResult where
  canvas_w : Int
  canvas_h : Int
  bg : Int × Int × Int × Int
  diags : List Nat
  ops : List (Nat × PasteOp)
deriving Repr, DecidableEq

/-- `CollageApp.build_collage` (lines 477-528): parse the four integer
settings (a `ValueError` aborts with `None` before the canvas exists), parse
the background color, build the safe area, rerun `recalc_layout`, then paste
each tile clipped to the safe area, skipping tiles whose bitmap fails to
open. -/
def build_collage (cw_s ch_s border_s radius_s bg_s : String)
    (images : List ImageEntry) (resolve : Nat → Option (Int × Int)) :
    Option BuildResult :=
  match pyInt cw_s, pyInt ch_s, pyInt border_s, pyInt radius_s with
  | some cw, some ch, some border, some corner_radius =>
    let bg := parse_hex_color bg_s
    let safe : Box := { x0 := border, y0 := border, x1 := cw - border, y1 := ch - border }
    let laid := recalc_layout cw_s border_s images
    let p := compositeLoop safe corner_radius resolve 0 laid
    some { canvas_w := cw, canvas_h := ch, bg := bg, diags := p.1, ops := p.2 }
  | _, _, _, _ => none

/-! ## Executability bridge

`ℚ` arithmetic is computable but not kernel-reducible (its normalization uses
well-founded recursion), so concrete runs of the layout are evaluated through
an integer-only variant proved equal to the rational one. -/

/-- The fractional-overflow test `(tw - free) / tw > 1/2` expressed over `Int`
by cross-multiplication; `ratioGtHalf_iff` proves it matches the rational
division used by `layoutBody`. -/
def ratioGtHalf (free tw : Int) : Bool :=
  if 0 < tw then decide (tw < 2 * (tw - free))
  else if tw = 0 then false
  else decide (2 * (tw - free) < tw)

/-- The integer overflow test agrees with the rational one. -/
lemma ratioGtHalf_iff (free tw : Int) :
    ((tw - free : Int) : ℚ) / (tw : ℚ) > OVERFLOW_THRESHOLD ↔ ratioGtHalf free tw = true := by
  unfold OVERFLOW_THRESHOLD ratioGtHalf
  rcases lt_trichotomy tw 0 with h | h | h
  · have htwQ : (tw : ℚ) < 0 := by exact_mod_cast h
    rw [if_neg (by omega), if_neg (by omega), gt_iff_lt, lt_div_iff_of_neg htwQ]
    push_cast
    constructor
    · intro hlt
      have hz : (2 * (tw - free) : Int) < tw := by
        have h2 : ((2 * (tw - free) : Int) : ℚ) < (tw : ℚ) := by push_cast; linarith
        exact_mod_cast h2
      simpa using hz
    · intro hlt
      have hz : (2 * (tw - free) : Int) < tw := by simpa using hlt
      have h2 : ((2 * (tw - free) : Int) : ℚ) < (tw : ℚ) := by exact_mod_cast hz
      push_cast at h2
      linarith
  · subst h
    simp
  · have htwQ : (0 : ℚ) < (tw : ℚ) := by exact_mod_cast h
    rw [if_pos h, gt_iff_lt, lt_div_iff₀ htwQ]
    push_cast
    constructor
    · intro hlt
      have hz : tw < (2 * (tw - free) : Int) := by
        have h2 : (tw : ℚ) < ((2 * (tw - free) : Int) : ℚ) := by push_cast; linarith
        exact_mod_cast h2
      simpa using hz
    · intro hlt
      have hz : tw < (2 * (tw - free) : Int) := by simpa using hlt
      have h2 : (tw : ℚ) < ((2 * (tw - free) : Int) : ℚ) := by exact_mod_cast hz
      push_cast at h2
      linarith

/-- `layoutBody` with the overflow test replaced by its integer form. -/
def layoutBodyX (collage_width border : Int) (st0 : LayoutState) (e : ImageEntry) :
    LayoutState × ImageEntry :=
  let free0 := collage_width - st0.current_x - border
  let st1 := if free0 ≤ 0 then wrapRow border st0 else st0
  let free1 := if free0 ≤ 0 then collage_width - st1.current_x - border else free0
  let st2 :=
    if e.target_w > free1 ∧ ratioGtHalf free1 e.target_w = true then wrapRow border st1
    else st1
  let e1 := { e with x := some st2.current_x, y := some st2.current_y }
  let st3 : LayoutState :=
    { current_x := st2.current_x + e.target_w + border
      current_y := st2.current_y
      current_row_height := max st2.current_row_height e.target_h }
  (st3, e1)

/-- The integer variant computes exactly the rational-division body. -/
lemma layoutBody_eqX (collage_width border : Int) (st : LayoutState) (e : ImageEntry) :
    layoutBody collage_width border st e = layoutBodyX collage_width border st e := by
  unfold layoutBody layoutBodyX
  simp only [ratioGtHalf_iff]

/-- Integer-only `recalc_layout_step`. -/
def recalc_layout_stepX (collage_width border : Int) (st : LayoutState) (e : ImageEntry) :
    LayoutState × ImageEntry :=
  if e.manual_x ≠ none ∧ e.manual_y ≠ none then (st, e)
  else layoutBodyX collage_width border st e

/-- Integer-only V5 step. -/
def recalc_layout_v5_stepX (collage_width border : Int) (st : LayoutState) (e : ImageEntry) :
    LayoutState × ImageEntry :=
  if e.locked then (st, e)
  else layoutBodyX collage_width border st e

lemma recalc_layout_step_eqX (collage_width border : Int) (st : LayoutState) (e : ImageEntry) :
    recalc_layout_step collage_width border st e = recalc_layout_stepX collage_width border st e := by
  unfold recalc_layout_step recalc_layout_stepX
  rw [layoutBody_eqX]

lemma recalc_layout_v5_step_eqX (collage_width border : Int) (st : LayoutState) (e : ImageEntry) :
    recalc_layout_v5_step collage_width border st e
      = recalc_layout_v5_stepX collage_width border st e := by
  unfold recalc_layout_v5_step recalc_layout_v5_stepX
  rw [layoutBody_eqX]

lemma layoutLoop_congr (step1 step2 : LayoutState → ImageEntry → LayoutState × ImageEntry)
    (h : ∀ st e, step1 st e = step2 st e) :
    ∀ (l : List ImageEntry) (st : LayoutState), layoutLoop step1 st l = layoutLoop step2 st l := by
  intro l
  induction l with
  | nil => intro st; rfl
  | cons e rest ih =>
    intro st
    simp only [layoutLoop, h, ih]

/-- Integer-only `recalc_layout`. -/
def recalc_layoutX (collage_width_s border_s : String) (images : List ImageEntry) :
    List ImageEntry :=
  match pyInt collage_width_s, pyInt border_s with
  | some cw, some b => (layoutLoop (recalc_layout_stepX cw b) (initState b) images).2
  | _, _ => images

/-- Integer-only V5 `recalc_layout`. -/
def recalc_layout_v5X (collage_width_s border_s : String) (images : List ImageEntry) :
    List ImageEntry :=
  match pyInt collage_width_s, pyInt border_s with
  | some cw, some b => (layoutLoop (recalc_layout_v5_stepX cw b) (initState b) images).2
  | _, _ => images

lemma recalc_layout_eqX (collage_width_s border_s : String) (images : List ImageEntry) :
    recalc_layout collage_width_s border_s images
      = recalc_layoutX collage_width_s border_s images := by
  unfold recalc_layout recalc_layoutX
  cases pyInt collage_width_s <;> cases pyInt border_s <;> simp only []
  rw [layoutLoop_congr _ _ (recalc_layout_step_eqX _ _) images]

lemma recalc_layout_v5_eqX (collage_width_s border_s : String) (images : List ImageEntry) :
    recalc_layout_v5 collage_width_s border_s images
      = recalc_layout_v5X collage_width_s border_s images := by
  unfold recalc_layout_v5 recalc_layout_v5X
  cases pyInt collage_width_s <;> cases pyInt border_s <;> simp only []
  rw [layoutLoop_congr _ _ (recalc_layout_v5_step_eqX _ _) images]

/-- `build_collage` with the integer-only layout. -/
def build_collageX (cw_s ch_s border_s radius_s bg_s : String)
    (images : List ImageEntry) (resolve : Nat → Option (Int × Int)) :
    Option BuildResult :=
  match pyInt cw_s, pyInt ch_s, pyInt border_s, pyInt radius_s with
  | some cw, some ch, some border, some corner_radius =>
    let bg := parse_hex_color bg_s
    let safe : Box := { x0 := border, y0 := border, x1 := cw - border, y1 := ch - border }
    let laid := recalc_layoutX cw_s border_s images
    let p := compositeLoop safe corner_radius resolve 0 laid
    some { canvas_w := cw, canvas_h := ch, bg := bg, diags := p.1, ops := p.2 }
  | _, _, _, _ => none

lemma build_collage_eqX (cw_s ch_s border_s radius_s bg_s : String)
    (images : List ImageEntry) (resolve : Nat → Option (Int × Int)) :
    build_collage cw_s ch_s border_s radius_s bg_s images resolve
      = build_collageX cw_s ch_s border_s radius_s bg_s images resolve := by
  unfold build_collage build_collageX
  rw [recalc_layout_eqX]

/-! ## Concrete scenarios -/

/-- A 50×20 tile with no manual position and no lock, as in the spec's
row-wrap worked example. -/
def c1Tile : ImageEntry :=
  { path := "tile", orig_w := 100, orig_h := 100, target_w := 50, target_h := 20 }

/-- Three such tiles in sequence. -/
def c1Images : List ImageEntry := [c1Tile, c1Tile, c1Tile]

/-! ## C1 -/

/-- C1 counterexample: with canvasWidth=100, border=10 and three 50×20 tiles,
`recalc_layout` does not produce the positions (10,10), (60,10), (10,40)
claimed by the spec's worked example: after tile 1 the cursor advances to
x = 10 + 50 + 10 = 70, so tile 2 sees freeSpace 20 (not 30), overflow ratio
30/50 = 0.6 > 0.5, and wraps. -/
theorem C1_cex :
    (recalc_layout "100" "10" c1Images).map (fun e => (e.x, e.y)) ≠
      [(some 10, some 10), (some 60, some 10), (some 10, some 40)] := by
  rw [recalc_layout_eqX]
  decide

/-- C1 amended: in the worked example tile 1 is placed at (10,10); tile 2 sees
freeSpace 20, overflow ratio 0.6 > 0.5, and wraps to (10,40); tile 3 likewise
wraps to (10,70). -/
theorem C1_row_wrap :
    (recalc_layout "100" "10" c1Images).map (fun e => (e.x, e.y)) =
      [(some 10, some 10), (some 10, some 40), (some 10, some 70)] := by
  rw [recalc_layout_eqX]
  decide

/-! ## C7 -/

/-- C7: when the canvas-width string or the border string fails to parse as an
integer, `recalc_layout` returns the tile list completely unchanged — no tile's
autoPosition or manualPosition is touched, the layout is not partially
applied.  This is the half of the claim the code satisfies; the other half
("reports a configuration error") is a bug in the code: the except branch is a
bare `return` that emits no message, print, or flag, in contrast to
`build_collage`, whose parse-failure path shows a warning dialog. -/
theorem C7_config_error_atomic (cw_s border_s : String) (images : List ImageEntry)
    (h : pyInt cw_s = none ∨ pyInt border_s = none) :
    recalc_layout cw_s border_s images = images := by
  unfold recalc_layout
  rcases h with h | h
  · rw [h]
  · rw [h]
    cases pyInt cw_s <;> rfl

/-- C7 witness: the code evaluated at the failing input — the non-numeric
width string "abc" with a concrete tile list leaves every tile unchanged
(and, per the source, emits nothing). -/
theorem C7_config_error_atomic_witness :
    pyInt "abc" = none ∧ recalc_layout "abc" "10" c1Images = c1Images :=
  ⟨by decide, C7_config_error_atomic "abc" "10" c1Images (Or.inl (by decide))⟩

/-! ## C2 -/

/-- C2: for an auto-laid-out tile (at least one manual coordinate unset) with
positive target width exceeding the current free space
`freeSpace = canvasWidth - x - border`, the engine wraps to a new row before
placing it if and only if `(targetWidth - freeSpace) / targetWidth > 0.5`:
when the ratio is at most one half the tile is placed at the current cursor
(overlapping the right border region, clipping deferred to rendering); when it
exceeds one half the tile is placed at the start of a fresh row (`x = border`,
`y` advanced past the current row, twice past it when free space was already
non-positive). -/
theorem C2_overflow_tiebreak (cw border : Int) (st : LayoutState) (e : ImageEntry)
    (hskip : e.manual_x = none ∨ e.manual_y = none)
    (htw : 0 < e.target_w)
    (hover : cw - st.current_x - border < e.target_w) :
    (((e.target_w - (cw - st.current_x - border) : Int) : ℚ) / (e.target_w : ℚ)
        ≤ OVERFLOW_THRESHOLD →
      (recalc_layout_step cw border st e).2.x = some st.current_x ∧
      (recalc_layout_step cw border st e).2.y = some st.current_y) ∧
    (((e.target_w - (cw - st.current_x - border) : Int) : ℚ) / (e.target_w : ℚ)
        > OVERFLOW_THRESHOLD →
      (recalc_layout_step cw border st e).2.x = some border ∧
      ((recalc_layout_step cw border st e).2.y
          = some (st.current_y + st.current_row_height + border) ∨
       (recalc_layout_step cw border st e).2.y
          = some (st.current_y + st.current_row_height + border + border))) := by
  have hns : ¬(e.manual_x ≠ none ∧ e.manual_y ≠ none) := by
    rcases hskip with h | h <;> simp [h]
  have hstep : recalc_layout_step cw border st e = layoutBodyX cw border st e := by
    rw [recalc_layout_step_eqX]
    unfold recalc_layout_stepX
    rw [if_neg hns]
  rw [hstep]
  constructor
  · intro hratio
    have hfalse : ratioGtHalf (cw - st.current_x - border) e.target_w = false := by
      rcases Bool.eq_false_or_eq_true (ratioGtHalf (cw - st.current_x - border) e.target_w)
        with h | h
      · exact absurd ((ratioGtHalf_iff _ _).2 h) (not_lt.2 hratio)
      · exact h
    have hfree : ¬(cw - st.current_x - border ≤ 0) := by
      unfold ratioGtHalf at hfalse
      rw [if_pos htw] at hfalse
      simp only [decide_eq_false_iff_not, not_lt] at hfalse
      omega
    unfold layoutBodyX wrapRow
    simp only [if_neg hfree]
    rw [if_neg (fun hc => Bool.false_ne_true (hfalse ▸ hc.2))]
    exact ⟨rfl, rfl⟩
  · intro hratio
    have htrue : ratioGtHalf (cw - st.current_x - border) e.target_w = true :=
      (ratioGtHalf_iff _ _).1 hratio
    unfold layoutBodyX wrapRow
    by_cases hfree : cw - st.current_x - border ≤ 0
    · simp only [if_pos hfree]
      by_cases hc : e.target_w > cw - border - border ∧
          ratioGtHalf (cw - border - border) e.target_w = true
      · rw [if_pos hc]
        exact ⟨rfl, Or.inr (by simp)⟩
      · rw [if_neg hc]
        exact ⟨rfl, Or.inl rfl⟩
    · simp only [if_neg hfree]
      rw [if_pos ⟨hover, htrue⟩]
      exact ⟨rfl, Or.inl rfl⟩

/-- A 50×20 tile with no manual position, for the C2 witness. -/
def c2Entry : ImageEntry :=
  { path := "t", orig_w := 1, orig_h := 1, target_w := 50, target_h := 20 }

/-- C2 witness: cursor at x=70 on canvas 100 with border 10 gives free space
20 for a width-50 tile: ratio 0.6 > 0.5, so the tile wraps to a fresh row. -/
theorem C2_overflow_tiebreak_witness :
    (recalc_layout_step 100 10 { current_x := 70, current_y := 10, current_row_height := 20 }
        c2Entry).2.x = some 10 ∧
    ((recalc_layout_step 100 10 { current_x := 70, current_y := 10, current_row_height := 20 }
        c2Entry).2.y = some 40 ∨
     (recalc_layout_step 100 10 { current_x := 70, current_y := 10, current_row_height := 20 }
        c2Entry).2.y = some 50) := by
  have h := (C2_overflow_tiebreak 100 10
      { current_x := 70, current_y := 10, current_row_height := 20 } c2Entry
      (Or.inl rfl) (by decide) (by decide)).2
      (by unfold c2Entry OVERFLOW_THRESHOLD; push_cast; norm_num)
  refine ⟨h.1, ?_⟩
  rcases h.2 with h2 | h2
  · exact Or.inl (by rw [h2]; norm_num)
  · exact Or.inr (by rw [h2]; norm_num)

/-! ## C3 -/

lemma layoutLoop_v5_locked (cw b : Int) :
    ∀ (l : List ImageEntry) (st : LayoutState) (i : Nat) (e : ImageEntry),
      l.get? i = some e → e.locked = true →
      ((layoutLoop (recalc_layout_v5_step cw b) st l).2).get? i = some e := by
  intro l
  induction l with
  | nil => intro st i e h _; simp at h
  | cons a rest ih =>
    intro st i e h hl
    cases i with
    | zero =>
      simp only [List.get?] at h
      injection h with h
      subst h
      simp [layoutLoop, recalc_layout_v5_step, hl]
    | succ n =>
      simp only [layoutLoop, List.get?]
      exact ih _ n e (by simpa using h) hl

lemma recalc_layout_v5_locked (s1 s2 : String) (l : List ImageEntry) (i : Nat) (e : ImageEntry)
    (h : l.get? i = some e) (hl : e.locked = true) :
    (recalc_layout_v5 s1 s2 l).get? i = some e := by
  unfold recalc_layout_v5
  cases pyInt s1 <;> cases pyInt s2
  · exact h
  · exact h
  · exact h
  · exact layoutLoop_v5_locked _ _ l _ i e h hl

/-- C3: in the V5 layout engine, a locked tile is completely frozen: the
per-tile step returns both the cursor state and the tile unchanged (it
contributes nothing to cursor advancement), and after any number of
`recalc_layout` calls — whatever the other tiles are — the locked tile's
record (autoPosition and manualPosition included) is exactly its original
one. -/
theorem C3_locked_frozen (cw border : Int) (cw_s border_s : String)
    (images : List ImageEntry) (i : Nat) (e : ImageEntry)
    (he : images.get? i = some e) (hlock : e.locked = true) (n : Nat) :
    (∀ st e2, e2.locked = true → recalc_layout_v5_step cw border st e2 = (st, e2)) ∧
    ((recalc_layout_v5 cw_s border_s)^[n] images).get? i = some e := by
  constructor
  · intro st e2 h2
    simp [recalc_layout_v5_step, h2]
  · induction n with
    | zero => simpa using he
    | succ m ih =>
      rw [Function.iterate_succ_apply']
      exact recalc_layout_v5_locked _ _ _ i e ih hlock

/-- A locked tile with pre-existing positions, for the C3 witness. -/
def c3Entry : ImageEntry :=
  { path := "locked", orig_w := 9, orig_h := 9, target_w := 30, target_h := 30,
    x := some 3, y := some 4, manual_x := some 7, locked := true }

/-- C3 witness: the locked tile keeps its exact record across two layout
passes next to an unlocked tile, and the step is cursor-neutral on it. -/
theorem C3_locked_frozen_witness :
    c3Entry.locked = true ∧
    recalc_layout_v5_step 100 10 (initState 10) c3Entry = (initState 10, c3Entry) ∧
    ((recalc_layout_v5 "100" "10")^[2] [c3Entry, c1Tile]).get? 0 = some c3Entry := by
  have h := C3_locked_frozen 100 10 "100" "10" [c3Entry, c1Tile] 0 c3Entry rfl rfl 2
  exact ⟨rfl, h.1 (initState 10) c3Entry rfl, h.2⟩

/-! ## C4 -/

/-- Closed form of `crop_to_aspect` in the relatively-wider-target branch. -/
lemma crop_to_aspect_eq1 (ow oh tw th : Int) (how : 0 < ow) (hth : 0 < th) (htw : 0 < tw)
    (h : (tw : ℚ) / (th : ℚ) > (ow : ℚ) / (oh : ℚ)) :
    crop_to_aspect ow oh tw th =
      { x0 := 0
        y0 := (oh - ⌊(ow : ℚ) * (th : ℚ) / (tw : ℚ)⌋).fdiv 2
        x1 := ow
        y1 := (oh - ⌊(ow : ℚ) * (th : ℚ) / (tw : ℚ)⌋).fdiv 2
                + ⌊(ow : ℚ) * (th : ℚ) / (tw : ℚ)⌋ } := by
  have hq : (ow : ℚ) / ((tw : ℚ) / (th : ℚ)) = (ow : ℚ) * (th : ℚ) / (tw : ℚ) :=
    div_div_eq_mul_div _ _ _
  have hq0 : 0 ≤ (ow : ℚ) / ((tw : ℚ) / (th : ℚ)) := by
    rw [hq]
    positivity
  unfold crop_to_aspect pyTrunc pyFloorDiv2
  rw [if_pos h, if_pos hq0, hq]

/-- Closed form of `crop_to_aspect` in the relatively-taller-target branch. -/
lemma crop_to_aspect_eq2 (ow oh tw th : Int) (hoh : 0 < oh) (hth : 0 < th) (htw : 0 < tw)
    (h : ¬((tw : ℚ) / (th : ℚ) > (ow : ℚ) / (oh : ℚ))) :
    crop_to_aspect ow oh tw th =
      { x0 := (ow - ⌊(oh : ℚ) * (tw : ℚ) / (th : ℚ)⌋).fdiv 2
        y0 := 0
        x1 := (ow - ⌊(oh : ℚ) * (tw : ℚ) / (th : ℚ)⌋).fdiv 2
                + ⌊(oh : ℚ) * (tw : ℚ) / (th : ℚ)⌋
        y1 := oh } := by
  have hq : (oh : ℚ) * ((tw : ℚ) / (th : ℚ)) = (oh : ℚ) * (tw : ℚ) / (th : ℚ) :=
    (mul_div_assoc _ _ _).symm
  have hq0 : 0 ≤ (oh : ℚ) * ((tw : ℚ) / (th : ℚ)) := by
    rw [hq]
    positivity
  unfold crop_to_aspect pyTrunc pyFloorDiv2
  rw [if_neg h, if_pos hq0, hq]

/-- C4: for positive source and target dimensions, `crop_to_aspect` returns a
maximal centered region matching the target aspect ratio up to one pixel of
integer rounding: when `targetAspect > sourceAspect` it keeps the full width
and reduces the height (the cropped height is within one pixel below the exact
`ow*th/tw`, the region stays inside the image, and the top and bottom margins
differ by at most one); otherwise it keeps the full height and reduces the
width symmetrically. -/
theorem C4_center_crop (ow oh tw th : Int)
    (how : 0 < ow) (hoh : 0 < oh) (htw : 0 < tw) (hth : 0 < th) :
    ((tw : ℚ) / (th : ℚ) > (ow : ℚ) / (oh : ℚ) →
      (crop_to_aspect ow oh tw th).x0 = 0 ∧ (crop_to_aspect ow oh tw th).x1 = ow ∧
      0 ≤ (crop_to_aspect ow oh tw th).y0 ∧ (crop_to_aspect ow oh tw th).y1 ≤ oh ∧
      (((crop_to_aspect ow oh tw th).y1 - (crop_to_aspect ow oh tw th).y0 : Int) : ℚ)
          ≤ (ow : ℚ) * (th : ℚ) / (tw : ℚ) ∧
      (ow : ℚ) * (th : ℚ) / (tw : ℚ) - 1
          < (((crop_to_aspect ow oh tw th).y1 - (crop_to_aspect ow oh tw th).y0 : Int) : ℚ) ∧
      (crop_to_aspect ow oh tw th).y0 ≤ oh - (crop_to_aspect ow oh tw th).y1 ∧
      oh - (crop_to_aspect ow oh tw th).y1 ≤ (crop_to_aspect ow oh tw th).y0 + 1) ∧
    ((tw : ℚ) / (th : ℚ) ≤ (ow : ℚ) / (oh : ℚ) →
      (crop_to_aspect ow oh tw th).y0 = 0 ∧ (crop_to_aspect ow oh tw th).y1 = oh ∧
      0 ≤ (crop_to_aspect ow oh tw th).x0 ∧ (crop_to_aspect ow oh tw th).x1 ≤ ow ∧
      (((crop_to_aspect ow oh tw th).x1 - (crop_to_aspect ow oh tw th).x0 : Int) : ℚ)
          ≤ (oh : ℚ) * (tw : ℚ) / (th : ℚ) ∧
      (oh : ℚ) * (tw : ℚ) / (th : ℚ) - 1
          < (((crop_to_aspect ow oh tw th).x1 - (crop_to_aspect ow oh tw th).x0 : Int) : ℚ) ∧
      (crop_to_aspect ow oh tw th).x0 ≤ ow - (crop_to_aspect ow oh tw th).x1 ∧
      ow - (crop_to_aspect ow oh tw th).x1 ≤ (crop_to_aspect ow oh tw th).x0 + 1) := by
  have howQ : (0 : ℚ) < (ow : ℚ) := by exact_mod_cast how
  have hohQ : (0 : ℚ) < (oh : ℚ) := by exact_mod_cast hoh
  have htwQ : (0 : ℚ) < (tw : ℚ) := by exact_mod_cast htw
  have hthQ : (0 : ℚ) < (th : ℚ) := by exact_mod_cast hth
  constructor
  · intro h
    rw [crop_to_aspect_eq1 ow oh tw th how hth htw h]
    dsimp only
    have hfl_le : (⌊(ow : ℚ) * th / tw⌋ : ℚ) ≤ (ow : ℚ) * th / tw := Int.floor_le _
    have hfl_gt : (ow : ℚ) * th / tw - 1 < (⌊(ow : ℚ) * th / tw⌋ : ℚ) := Int.sub_one_lt_floor _
    have hnh_lt : ⌊(ow : ℚ) * th / tw⌋ < oh := by
      rw [Int.floor_lt]
      rw [div_lt_iff₀ htwQ]
      have h2 := (div_lt_div_iff₀ hohQ hthQ).1 h
      linarith
    have hnh0 : 0 ≤ ⌊(ow : ℚ) * th / tw⌋ := Int.floor_nonneg.2 (by positivity)
    have hediv : (oh - ⌊(ow : ℚ) * th / tw⌋).fdiv 2 = (oh - ⌊(ow : ℚ) * th / tw⌋) / 2 :=
      Int.fdiv_eq_ediv _ (by norm_num)
    have hcancel : (oh - ⌊(ow : ℚ) * th / tw⌋).fdiv 2 + ⌊(ow : ℚ) * th / tw⌋ -
        (oh - ⌊(ow : ℚ) * th / tw⌋).fdiv 2 = ⌊(ow : ℚ) * th / tw⌋ := by omega
    refine ⟨rfl, rfl, ?_, ?_, ?_, ?_, ?_, ?_⟩
    · rw [hediv]; omega
    · rw [hediv]; omega
    · rw [hcancel]; exact hfl_le
    · rw [hcancel]; exact hfl_gt
    · rw [hediv]; omega
    · rw [hediv]; omega
  · intro hle
    have h := not_lt.2 hle
    rw [crop_to_aspect_eq2 ow oh tw th hoh hth htw h]
    dsimp only
    have hfl_le : (⌊(oh : ℚ) * tw / th⌋ : ℚ) ≤ (oh : ℚ) * tw / th := Int.floor_le _
    have hfl_gt : (oh : ℚ) * tw / th - 1 < (⌊(oh : ℚ) * tw / th⌋ : ℚ) := Int.sub_one_lt_floor _
    have hnw_le : ⌊(oh : ℚ) * tw / th⌋ ≤ ow := by
      have h2 := (div_le_div_iff₀ hthQ hohQ).1 hle
      have h3 : (oh : ℚ) * tw / th ≤ (ow : ℚ) := by
        rw [div_le_iff₀ hthQ]
        linarith
      have h4 : (⌊(oh : ℚ) * tw / th⌋ : ℚ) ≤ (ow : ℚ) := le_trans hfl_le h3
      exact_mod_cast h4
    have hnw0 : 0 ≤ ⌊(oh : ℚ) * tw / th⌋ := Int.floor_nonneg.2 (by positivity)
    have hediv : (ow - ⌊(oh : ℚ) * tw / th⌋).fdiv 2 = (ow - ⌊(oh : ℚ) * tw / th⌋) / 2 :=
      Int.fdiv_eq_ediv _ (by norm_num)
    have hcancel : (ow - ⌊(oh : ℚ) * tw / th⌋).fdiv 2 + ⌊(oh : ℚ) * tw / th⌋ -
        (ow - ⌊(oh : ℚ) * tw / th⌋).fdiv 2 = ⌊(oh : ℚ) * tw / th⌋ := by omega
    refine ⟨rfl, rfl, ?_, ?_, ?_, ?_, ?_, ?_⟩
    · rw [hediv]; omega
    · rw [hediv]; omega
    · rw [hcancel]; exact hfl_le
    · rw [hcancel]; exact hfl_gt
    · rw [hediv]; omega
    · rw [hediv]; omega

/-- C4 witness: a 4×3 source cropped for a 1:1 target keeps the full height
and stays inside the image. -/
theorem C4_center_crop_witness :
    (crop_to_aspect 4 3 1 1).y0 = 0 ∧ (crop_to_aspect 4 3 1 1).y1 = 3 ∧
    0 ≤ (crop_to_aspect 4 3 1 1).x0 ∧ (crop_to_aspect 4 3 1 1).x1 ≤ 4 := by
  have h := (C4_center_crop 4 3 1 1 (by norm_num) (by norm_num) (by norm_num) (by norm_num)).2
      (by norm_num)
  exact ⟨h.1, h.2.1, h.2.2.1, h.2.2.2.1⟩

/-! ## C6 -/

/-- C6: for a tile whose effective position is `(x, y)`, the compositor paints
nothing (and raises nothing — the operation is a total function returning
`none`) exactly when the placement rectangle's intersection with the safe area
is empty; when the intersection is non-empty the single paste op targets
exactly the intersection, crops the resized tile (and mask, when a positive
corner radius is set) to the matching tile-local sub-region, and that
sub-region lies inside the tile's target bounds. -/
theorem C6_intersection_clip (safe : Box) (corner_radius : Int) (e : ImageEntry) (x y : Int)
    (hx : (match e.manual_x with | some mx => some mx | none => e.x) = some x)
    (hy : (match e.manual_y with | some my => some my | none => e.y) = some y) :
    (¬(max x safe.x0 < min (x + e.target_w) safe.x1 ∧
        max y safe.y0 < min (y + e.target_h) safe.y1) →
      tileOpResolved safe corner_radius e = none) ∧
    (∀ op, tileOpResolved safe corner_radius e = some op →
      (max x safe.x0 < min (x + e.target_w) safe.x1 ∧
        max y safe.y0 < min (y + e.target_h) safe.y1) ∧
      op.dest = { x0 := max x safe.x0, y0 := max y safe.y0,
                  x1 := min (x + e.target_w) safe.x1, y1 := min (y + e.target_h) safe.y1 } ∧
      op.src = { x0 := max x safe.x0 - x, y0 := max y safe.y0 - y,
                 x1 := min (x + e.target_w) safe.x1 - x,
                 y1 := min (y + e.target_h) safe.y1 - y } ∧
      0 ≤ op.src.x0 ∧ 0 ≤ op.src.y0 ∧ op.src.x1 ≤ e.target_w ∧ op.src.y1 ≤ e.target_h ∧
      op.masked = decide (corner_radius > 0)) := by
  unfold tileOpResolved
  rw [hx, hy]
  dsimp only
  constructor
  · intro h
    rw [if_neg h]
  · intro op hop
    by_cases hc : max x safe.x0 < min (x + e.target_w) safe.x1 ∧
        max y safe.y0 < min (y + e.target_h) safe.y1
    · rw [if_pos hc] at hop
      injection hop with hop
      subst hop
      refine ⟨hc, rfl, ?_, ?_, ?_, ?_, ?_, rfl⟩
      · dsimp only
        simp only [Box.mk.injEq]
        exact ⟨trivial, trivial, by omega, by omega⟩
      · dsimp only; omega
      · dsimp only; omega
      · dsimp only; omega
      · dsimp only; omega
    · rw [if_neg hc] at hop
      exact absurd hop (by simp)

/-- The claim's concrete example: a tile forced to effective position
(-1000, -1000). -/
def c6Entry : ImageEntry :=
  { path := "far", orig_w := 10, orig_h := 10, target_w := 50, target_h := 20,
    manual_x := some (-1000), manual_y := some (-1000) }

/-- C6 witness: on a 100×100 canvas with border 10, the tile at
(-1000, -1000) yields no paste operation. -/
theorem C6_intersection_clip_witness :
    tileOpResolved { x0 := 10, y0 := 10, x1 := 90, y1 := 90 } 0 c6Entry = none := by
  exact (C6_intersection_clip { x0 := 10, y0 := 10, x1 := 90, y1 := 90 } 0 c6Entry
      (-1000) (-1000) rfl rfl).1 (by decide)

/-! ## C5 -/

/-- Failing one tile's bitmap resolution records its index as a diagnostic,
produces no op for it, and leaves every other tile's ops untouched. -/
lemma compositeLoop_fail (safe : Box) (radius : Int)
    (resolve resolve' : Nat → Option (Int × Int)) (i : Nat)
    (hi' : resolve' i = none) (hag : ∀ j, j ≠ i → resolve' j = resolve j) :
    ∀ (l : List ImageEntry) (k : Nat),
      (compositeLoop safe radius resolve' k l).2
          = ((compositeLoop safe radius resolve k l).2).filter (fun p => decide (p.1 ≠ i)) ∧
      (k ≤ i → i < k + l.length → i ∈ (compositeLoop safe radius resolve' k l).1) := by
  intro l
  induction l with
  | nil =>
    intro k
    refine ⟨rfl, fun h1 h2 => ?_⟩
    simp at h2
    omega
  | cons e rest ih =>
    intro k
    constructor
    · by_cases hk : k = i
      · subst hk
        simp only [compositeLoop, hi']
        cases hrk : resolve k with
        | none => simpa using (ih (k + 1)).1
        | some v =>
          cases hop : tileOpResolved safe radius e with
          | none => simpa using (ih (k + 1)).1
          | some op => simp [(ih (k + 1)).1]
      · have hrk := hag k hk
        simp only [compositeLoop, hrk]
        cases hx : resolve k with
        | none => simpa [hx] using (ih (k + 1)).1
        | some v =>
          cases hop : tileOpResolved safe radius e with
          | none => simpa [hx, hop] using (ih (k + 1)).1
          | some op => simp [hx, hop, (ih (k + 1)).1, hk]
    · intro h1 h2
      by_cases hk : k = i
      · subst hk
        simp only [compositeLoop, hi']
        exact List.mem_cons_self _ _
      · have hk1 : k + 1 ≤ i := by omega
        have hk2 : i < (k + 1) + rest.length := by
          simp only [List.length_cons] at h2
          omega
        have hmem := (ih (k + 1)).2 hk1 hk2
        have hrk := hag k hk
        simp only [compositeLoop, hrk]
        cases hx : resolve k with
        | none => exact List.mem_cons_of_mem _ hmem
        | some v =>
          cases hop : tileOpResolved safe radius e with
          | none => exact hmem
          | some op => exact hmem

lemma layoutLoop_length (step : LayoutState → ImageEntry → LayoutState × ImageEntry) :
    ∀ (l : List ImageEntry) (st : LayoutState), ((layoutLoop step st l).2).length = l.length := by
  intro l
  induction l with
  | nil => intro st; rfl
  | cons e rest ih =>
    intro st
    simp only [layoutLoop, List.length_cons, ih]

lemma recalc_layout_length (s1 s2 : String) (l : List ImageEntry) :
    (recalc_layout s1 s2 l).length = l.length := by
  unfold recalc_layout
  cases pyInt s1 <;> cases pyInt s2
  · rfl
  · rfl
  · rfl
  · exact layoutLoop_length _ l _

/-- C5: `build_collage` aborts with no image exactly when one of the four
canvas settings fails integer parsing (before any canvas or paint op exists);
a single unresolvable bitmap instead records a diagnostic for that tile,
paints nothing for it, and leaves the paint operations of all other tiles
exactly as they would have been. -/
theorem C5_failure_semantics (cw_s ch_s border_s radius_s bg_s : String)
    (images : List ImageEntry) (resolve resolve' : Nat → Option (Int × Int)) (i : Nat) :
    (build_collage cw_s ch_s border_s radius_s bg_s images resolve = none ↔
      (pyInt cw_s = none ∨ pyInt ch_s = none ∨ pyInt border_s = none ∨
        pyInt radius_s = none)) ∧
    (resolve' i = none → (∀ j, j ≠ i → resolve' j = resolve j) → i < images.length →
      ∀ r', build_collage cw_s ch_s border_s radius_s bg_s images resolve' = some r' →
        i ∈ r'.diags ∧ (∀ p ∈ r'.ops, p.1 ≠ i) ∧
        ∀ r, build_collage cw_s ch_s border_s radius_s bg_s images resolve = some r →
          r'.ops = r.ops.filter (fun p => decide (p.1 ≠ i))) := by
  constructor
  · unfold build_collage
    cases pyInt cw_s <;> cases pyInt ch_s <;> cases pyInt border_s <;>
      cases pyInt radius_s <;> simp
  · intro hi' hag hi r' hr'
    unfold build_collage at hr'
    cases hcw : pyInt cw_s with
    | none => rw [hcw] at hr'; exact absurd hr' (by simp)
    | some cw =>
    cases hch : pyInt ch_s with
    | none => rw [hcw, hch] at hr'; exact absurd hr' (by simp)
    | some ch =>
    cases hb : pyInt border_s with
    | none => rw [hcw, hch, hb] at hr'; exact absurd hr' (by simp)
    | some b =>
    cases hrad : pyInt radius_s with
    | none => rw [hcw, hch, hb, hrad] at hr'; exact absurd hr' (by simp)
    | some radius =>
      rw [hcw, hch, hb, hrad] at hr'
      simp only [] at hr'
      injection hr' with hr'
      subst hr'
      have hfail := compositeLoop_fail
        { x0 := b, y0 := b, x1 := cw - b, y1 := ch - b } radius resolve resolve' i hi' hag
        (recalc_layout cw_s border_s images) 0
      have hlen : i < (recalc_layout cw_s border_s images).length := by
        rw [recalc_layout_length]
        exact hi
      refine ⟨hfail.2 (Nat.zero_le _) (by simpa using hlen), ?_, ?_⟩
      · intro p hp
        rw [hfail.1] at hp
        have := List.of_mem_filter hp
        simpa using this
      · intro r hr
        unfold build_collage at hr
        rw [hcw, hch, hb, hrad] at hr
        simp only [] at hr
        injection hr with hr
        subst hr
        exact hfail.1

/-- The result of the C5 witness's degraded run. -/
def c5Result : BuildResult :=
  { canvas_w := 100, canvas_h := 100, bg := (0, 0, 0, 255), diags := [0], ops := [] }

/-- C5 witness: with one tile whose bitmap fails to open, the composite still
succeeds, reports tile 0 and paints nothing for it; with an unparseable width
the composite aborts with no image. -/
theorem C5_failure_semantics_witness :
    (build_collage "100" "100" "10" "0" "#000000" [c1Tile]
        (fun j => if j = 0 then none else some (100, 100)) = some c5Result ∧
      0 ∈ c5Result.diags ∧ ∀ p ∈ c5Result.ops, p.1 ≠ 0) ∧
    build_collage "zz" "100" "10" "0" "#000000" [c1Tile] (fun _ => some (100, 100)) = none := by
  have hb' : build_collage "100" "100" "10" "0" "#000000" [c1Tile]
      (fun j => if j = 0 then none else some (100, 100)) = some c5Result := by
    rw [build_collage_eqX]
    decide
  have h := (C5_failure_semantics "100" "100" "10" "0" "#000000" [c1Tile]
      (fun _ => some (100, 100)) (fun j => if j = 0 then none else some (100, 100)) 0).2
      rfl (fun j hj => by simp [hj]) (by decide) c5Result hb'
  have habort := (C5_failure_semantics "zz" "100" "10" "0" "#000000" [c1Tile]
      (fun _ => some (100, 100)) (fun _ => some (100, 100)) 0).1.mpr
      (Or.inl (by decide))
  exact ⟨⟨hb', h.1, h.2.1⟩, habort⟩

/-! ## C8 -/

/-- The spec's atomic `manualPosition` abstraction (§3): an optional pair,
present only when both manual coordinates are set. -/
def manualPosition (e : ImageEntry) : Option (Int × Int) :=
  match e.manual_x, e.manual_y with
  | some a, some b => some (a, b)
  | _, _ => none

/-- The spec's `autoPosition` abstraction: an optional pair, present only
when both auto coordinates are set. -/
def autoPosition (e : ImageEntry) : Option (Int × Int) :=
  match e.x, e.y with
  | some a, some b => some (a, b)
  | _, _ => none

/-- View a pair of optional coordinates as an optional pair. -/
def pairOf (p : Option Int × Option Int) : Option (Int × Int) :=
  match p with
  | (some a, some b) => some (a, b)
  | _ => none

/-- Modelled from the spec: `effectivePosition(tile) = manualPosition if
manualPosition is not None else autoPosition`, with `manualPosition` the
atomic optional pair of §3. -/
def specEffectivePosition (e : ImageEntry) : Option (Int × Int) :=
  match manualPosition e with
  | some p => some p
  | none => autoPosition e

/-- A tile with only the manual x-coordinate set: the dialog allows filling
Manual X while leaving Manual Y blank. -/
def c8Entry : ImageEntry :=
  { path := "mix", orig_w := 10, orig_h := 10, target_w := 5, target_h := 5,
    x := some 1, y := some 2, manual_x := some 5 }

/-- C8 counterexample: with `manual_x = 5` set but `manual_y` unset, the
code's effective position mixes the two sources, `(5, 2)`, whereas the
claimed invariant (atomic `manualPosition` precedence) demands the
autoPosition `(1, 2)`. -/
theorem C8_cex :
    pairOf c8Entry.get_display_pos = some (5, 2) ∧
    specEffectivePosition c8Entry = some (1, 2) ∧
    pairOf c8Entry.get_display_pos ≠ specEffectivePosition c8Entry := by
  decide

lemma recalc_layout_step_display (cw b : Int) (st : LayoutState) (a : ImageEntry) :
    (((recalc_layout_step cw b st a).2).get_display_pos).1.isSome ∧
    (((recalc_layout_step cw b st a).2).get_display_pos).2.isSome := by
  unfold recalc_layout_step
  by_cases hm : a.manual_x ≠ none ∧ a.manual_y ≠ none
  · rw [if_pos hm]
    obtain ⟨h1, h2⟩ := hm
    unfold ImageEntry.get_display_pos
    cases hxv : a.manual_x with
    | none => exact absurd hxv h1
    | some mx =>
      cases hyv : a.manual_y with
      | none => exact absurd hyv h2
      | some my => simp
  · rw [if_neg hm]
    unfold layoutBody ImageEntry.get_display_pos
    dsimp only
    cases a.manual_x <;> cases a.manual_y <;> simp

lemma layoutLoop_display_isSome (cw b : Int) :
    ∀ (l : List ImageEntry) (st : LayoutState) (e1 : ImageEntry),
      e1 ∈ (layoutLoop (recalc_layout_step cw b) st l).2 →
      (e1.get_display_pos).1.isSome ∧ (e1.get_display_pos).2.isSome := by
  intro l
  induction l with
  | nil => intro st e1 h; simp [layoutLoop] at h
  | cons a rest ih =>
    intro st e1 h
    simp only [layoutLoop, List.mem_cons] at h
    rcases h with h | h
    · subst h
      exact recalc_layout_step_display cw b st a
    · exact ih _ e1 h

/-- C8 amended: effective position is computed per coordinate — each axis
independently prefers the manual override and falls back to the auto value.
It therefore equals `manualPosition` whenever both manual coordinates are set
and `autoPosition` whenever neither is, but mixes the two when exactly one is
set. After a successful layout pass every tile's effective position has both
coordinates present (it can be `None` only before the first pass). -/
theorem C8_effective_position (e : ImageEntry) (cw_s border_s : String) (cw b : Int)
    (hcw : pyInt cw_s = some cw) (hb : pyInt border_s = some b) (images : List ImageEntry) :
    (∀ p, manualPosition e = some p → pairOf e.get_display_pos = some p) ∧
    (e.manual_x = none → e.manual_y = none → pairOf e.get_display_pos = autoPosition e) ∧
    (∀ mx, e.manual_x = some mx → (e.get_display_pos).1 = some mx) ∧
    (e.manual_x = none → (e.get_display_pos).1 = e.x) ∧
    (∀ my, e.manual_y = some my → (e.get_display_pos).2 = some my) ∧
    (e.manual_y = none → (e.get_display_pos).2 = e.y) ∧
    (∀ e1 ∈ recalc_layout cw_s border_s images,
      (e1.get_display_pos).1.isSome ∧ (e1.get_display_pos).2.isSome) := by
  refine ⟨?_, ?_, ?_, ?_, ?_, ?_, ?_⟩
  · intro p hp
    unfold manualPosition at hp
    unfold pairOf ImageEntry.get_display_pos
    cases hxv : e.manual_x <;> cases hyv : e.manual_y <;> rw [hxv, hyv] at hp <;>
      simp_all
  · intro h1 h2
    unfold pairOf ImageEntry.get_display_pos autoPosition
    rw [h1, h2]
    cases e.x <;> cases e.y <;> rfl
  · intro mx hmx
    unfold ImageEntry.get_display_pos
    rw [hmx]
  · intro h1
    unfold ImageEntry.get_display_pos
    rw [h1]
  · intro my hmy
    unfold ImageEntry.get_display_pos
    rw [hmy]
  · intro h2
    unfold ImageEntry.get_display_pos
    rw [h2]
  · intro e1 he1
    unfold recalc_layout at he1
    rw [hcw, hb] at he1
    exact layoutLoop_display_isSome cw b images (initState b) e1 he1

/-- C8 witness: the mixed tile's effective position is `(5, 2)` —
manual x, auto y. -/
theorem C8_effective_position_witness :
    (c8Entry.get_display_pos).1 = some 5 ∧ (c8Entry.get_display_pos).2 = some 2 := by
  have h := C8_effective_position c8Entry "100" "10" 100 10 (by decide) (by decide) []
  exact ⟨h.2.2.1 5 rfl, h.2.2.2.2.2.1 rfl⟩

/-! ## C9 -/

/-- Cursor invariant of the layout loop: the cursor never retreats past the
border and the running row height is non-negative. -/
def LayoutInv (b : Int) (st : LayoutState) : Prop :=
  b ≤ st.current_x ∧ b ≤ st.current_y ∧ 0 ≤ st.current_row_height

lemma wrapRow_inv (b : Int) (hb : 0 ≤ b) (st : LayoutState) (h : LayoutInv b st) :
    LayoutInv b (wrapRow b st) := by
  obtain ⟨h1, h2, h3⟩ := h
  unfold LayoutInv wrapRow
  dsimp only
  omega

/-- The body of a layout iteration wraps zero, one or two times, then places
the tile at the resulting cursor and advances. -/
lemma layoutBodyX_char (cw b : Int) (st : LayoutState) (e : ImageEntry) :
    ∃ st2 : LayoutState,
      (st2 = st ∨ st2 = wrapRow b st ∨ st2 = wrapRow b (wrapRow b st)) ∧
      layoutBodyX cw b st e =
        ({ current_x := st2.current_x + e.target_w + b
           current_y := st2.current_y
           current_row_height := max st2.current_row_height e.target_h },
         { e with x := some st2.current_x, y := some st2.current_y }) := by
  unfold layoutBodyX
  by_cases hc1 : cw - st.current_x - b ≤ 0
  · simp only [if_pos hc1]
    by_cases hc2 : e.target_w > cw - (wrapRow b st).current_x - b ∧
        ratioGtHalf (cw - (wrapRow b st).current_x - b) e.target_w = true
    · exact ⟨wrapRow b (wrapRow b st), Or.inr (Or.inr rfl), by rw [if_pos hc2]⟩
    · exact ⟨wrapRow b st, Or.inr (Or.inl rfl), by rw [if_neg hc2]⟩
  · simp only [if_neg hc1]
    by_cases hc2 : e.target_w > cw - st.current_x - b ∧
        ratioGtHalf (cw - st.current_x - b) e.target_w = true
    · exact ⟨wrapRow b st, Or.inr (Or.inl rfl), by rw [if_pos hc2]⟩
    · exact ⟨st, Or.inl rfl, by rw [if_neg hc2]⟩

lemma recalc_layout_step_inv (cw b : Int) (hb : 0 ≤ b) (st : LayoutState) (a : ImageEntry)
    (htw : 0 < a.target_w) (h : LayoutInv b st) :
    LayoutInv b (recalc_layout_step cw b st a).1 := by
  rw [recalc_layout_step_eqX]
  unfold recalc_layout_stepX
  by_cases hm : a.manual_x ≠ none ∧ a.manual_y ≠ none
  · rw [if_pos hm]
    exact h
  · rw [if_neg hm]
    obtain ⟨st2, hst2, hbody⟩ := layoutBodyX_char cw b st a
    have hInv2 : LayoutInv b st2 := by
      rcases hst2 with rfl | rfl | rfl
      · exact h
      · exact wrapRow_inv b hb st h
      · exact wrapRow_inv b hb _ (wrapRow_inv b hb st h)
    rw [hbody]
    obtain ⟨g1, g2, g3⟩ := hInv2
    exact ⟨by dsimp only; omega, by dsimp only; omega,
      by dsimp only; exact le_trans g3 (le_max_left _ _)⟩

lemma layoutLoop_bounds (cw b : Int) (hb : 0 ≤ b) :
    ∀ (l : List ImageEntry) (st : LayoutState), LayoutInv b st →
      (∀ e ∈ l, 0 < e.target_w) →
      ∀ (i : Nat) (e1 : ImageEntry),
        ((layoutLoop (recalc_layout_step cw b) st l).2).get? i = some e1 →
        (e1.manual_x = none ∨ e1.manual_y = none) →
        ∃ px py, e1.x = some px ∧ e1.y = some py ∧ b ≤ px ∧ b ≤ py := by
  intro l
  induction l with
  | nil => intro st _ _ i e1 hget _; simp [layoutLoop] at hget
  | cons a rest ih =>
    intro st hinv hl i e1 hget hman
    simp only [layoutLoop] at hget
    cases i with
    | zero =>
      simp only [List.get?] at hget
      injection hget with hget
      subst hget
      rw [recalc_layout_step_eqX] at hman ⊢
      unfold recalc_layout_stepX at hman ⊢
      by_cases hm : a.manual_x ≠ none ∧ a.manual_y ≠ none
      · rw [if_pos hm] at hman
        exact absurd hman (by
          obtain ⟨h1, h2⟩ := hm
          simp only [not_or]
          exact ⟨h1, h2⟩)
      · rw [if_neg hm]
        obtain ⟨st2, hst2, hbody⟩ := layoutBodyX_char cw b st a
        have hInv2 : LayoutInv b st2 := by
          rcases hst2 with rfl | rfl | rfl
          · exact hinv
          · exact wrapRow_inv b hb st hinv
          · exact wrapRow_inv b hb _ (wrapRow_inv b hb st hinv)
        rw [hbody]
        exact ⟨st2.current_x, st2.current_y, rfl, rfl, hInv2.1, hInv2.2.1⟩
    | succ n =>
      simp only [List.get?] at hget
      have hInv' : LayoutInv b (recalc_layout_step cw b st a).1 :=
        recalc_layout_step_inv cw b hb st a (hl a (List.mem_cons_self _ _)) hinv
      exact ih _ hInv' (fun e he => hl e (List.mem_cons_of_mem _ he)) n e1 hget hman

/-- C9: with a non-negative border and positive tile widths, every tile laid
out by a successful `recalc_layout` run receives an autoPosition with
`x ≥ border` and `y ≥ border` — the first row starts at `y = border` and no
row begins above it. -/
theorem C9_position_bounds (cw_s border_s : String) (cw b : Int)
    (hcw : pyInt cw_s = some cw) (hb : pyInt border_s = some b) (hb0 : 0 ≤ b)
    (images : List ImageEntry) (htw : ∀ e ∈ images, 0 < e.target_w)
    (i : Nat) (e1 : ImageEntry)
    (hout : (recalc_layout cw_s border_s images).get? i = some e1)
    (hauto : e1.manual_x = none ∨ e1.manual_y = none) :
    ∃ px py, e1.x = some px ∧ e1.y = some py ∧ b ≤ px ∧ b ≤ py := by
  unfold recalc_layout at hout
  rw [hcw, hb] at hout
  exact layoutLoop_bounds cw b hb0 images (initState b)
    ⟨le_refl b, le_refl b, le_refl 0⟩ htw i e1 hout hauto

/-- The first tile's laid-out record in the C9 witness scenario. -/
def c9Out : ImageEntry := { c1Tile with x := some 10, y := some 10 }

/-- C9 witness: the single 50×20 tile on canvas 100 with border 10 is placed
at (10, 10), within the bounds. -/
theorem C9_position_bounds_witness :
    ∃ px py, c9Out.x = some px ∧ c9Out.y = some py ∧ (10 : Int) ≤ px ∧ (10 : Int) ≤ py := by
  have hout : (recalc_layout "100" "10" [c1Tile]).get? 0 = some c9Out := by
    rw [recalc_layout_eqX]
    decide
  exact C9_position_bounds "100" "10" 100 10 (by decide) (by decide) (by decide) [c1Tile]
    (by decide) 0 c9Out hout (Or.inl rfl)

/-! ## C10 -/

/-- The C10 claim's literal color-string shape: `#` plus exactly six hex
digits, or six hex digits alone (no stripping, no signs). -/
def isStrictHexForm (s : String) : Bool :=
  match s.data with
  | '#' :: rest => decide (rest.length = 6) && rest.all isHexDigit
  | l => decide (l.length = 6) && l.all isHexDigit

/-- C10 counterexample: the string `" 0a0b0c"` is not `#` plus six hex digits
nor six bare hex digits (it starts with a space), yet `parse_hex_color`
strips whitespace first and returns `(10, 11, 12, 255)`, not opaque black. -/
theorem C10_cex :
    isStrictHexForm " 0a0b0c" = false ∧
    parse_hex_color " 0a0b0c" = (10, 11, 12, 255) ∧
    parse_hex_color " 0a0b0c" ≠ (0, 0, 0, 255) := by
  decide

/-- C10 amended: `parse_hex_color` is total and always returns alpha 255; a
string whose whitespace-stripped, optionally-`#`-prefixed payload does not
consist of exactly six characters splitting into three two-character slices
each accepted by Python's base-16 `int` conversion (which itself tolerates a
sign or inner whitespace) yields opaque black `(0,0,0,255)`; and the
background string can never abort `build_collage` nor change its diagnostics
or paint operations. -/
theorem C10_parse_total (s bg2_s cw_s ch_s border_s radius_s : String) (cw ch b r : Int)
    (hcw : pyInt cw_s = some cw) (hch : pyInt ch_s = some ch)
    (hb : pyInt border_s = some b) (hr : pyInt radius_s = some r)
    (images : List ImageEntry) (resolve : Nat → Option (Int × Int)) :
    (parse_hex_color s).2.2.2 = 255 ∧
    (¬((hexPayload s).length = 6 ∧ (pyIntHex ((hexPayload s).take 2)).isSome ∧
        (pyIntHex (((hexPayload s).drop 2).take 2)).isSome ∧
        (pyIntHex (((hexPayload s).drop 4).take 2)).isSome) →
      parse_hex_color s = (0, 0, 0, 255)) ∧
    (∃ res, build_collage cw_s ch_s border_s radius_s s images resolve = some res ∧
      res.bg = parse_hex_color s ∧
      ∀ res2, build_collage cw_s ch_s border_s radius_s bg2_s images resolve = some res2 →
        res2.diags = res.diags ∧ res2.ops = res.ops) := by
  refine ⟨?_, ?_, ?_⟩
  · unfold parse_hex_color
    dsimp only
    split
    · split <;> rfl
    · rfl
  · intro h
    unfold parse_hex_color
    dsimp only
    by_cases hlen : (hexPayload s).length = 6
    · rw [if_pos hlen]
      cases h1 : pyIntHex ((hexPayload s).take 2) with
      | none => rfl
      | some v1 =>
        cases h2 : pyIntHex (((hexPayload s).drop 2).take 2) with
        | none => rfl
        | some v2 =>
          cases h3 : pyIntHex (((hexPayload s).drop 4).take 2) with
          | none => rfl
          | some v3 =>
            exact absurd ⟨hlen, by simp [h1], by simp [h2], by simp [h3]⟩ h
    · rw [if_neg hlen]
  · unfold build_collage
    rw [hcw, hch, hb, hr]
    simp only []
    refine ⟨_, rfl, rfl, ?_⟩
    intro res2 h2
    injection h2 with h2
    subst h2
    exact ⟨rfl, rfl⟩

/-- C10 witness: a junk background string parses to opaque black with alpha
255. -/
theorem C10_parse_total_witness :
    parse_hex_color "zzz" = (0, 0, 0, 255) ∧ (parse_hex_color "zzz").2.2.2 = 255 := by
  have h := C10_parse_total "zzz" "#ffffff" "100" "100" "10" "0" 100 100 10 0
      (by decide) (by decide) (by decide) (by decide) [] (fun _ => none)
  exact ⟨h.2.1 (by decide), h.1⟩

end Tapestry
